import Mathlib

/-!
Shallow embedding of the brinick/logging repository (Go).

The repository is a logging facade over the external logrus library:
a `Config` value type with a merge operation (`Config.Update`), a null
backend (`NullLogger`), a structured backend (`LogrusLogger`) that owns
output-destination policy, a process-wide registry
(`NewClient`/`SetClient`/`Client`), and a best-effort call-site locator
(`source`).

External collaborators (the logrus library itself, the filesystem, the
Go runtime's stack inspection) are modelled as parameters: a `FS`
record supplies directory-existence checks and file-open results, and
an `Option CallerFrame` supplies the result of `runtime.Caller(3)`.
Go's in-place mutation of the logger struct is modelled by explicit
state passing; Go `panic` and returned `error` are kept distinct in
the `GoResult` type, since the source uses both.
-/

namespace Logging

/-- A Go `interface{}` value as it occurs in logging fields. -/
inductive GoValue where
  | str : String → GoValue
  | int : Int → GoValue
  | boolean : Bool → GoValue
deriving DecidableEq, Repr

/-- `Field` represents a logging Field (Name + Val), from the facade file. -/
structure Field where
  Name : String
  Val : GoValue
deriving DecidableEq, Repr

/-- `F` is a shortcut for creating logging Fields. -/
def F (name : String) (val : GoValue) : Field :=
  { Name := name, Val := val }

/-- `Config` is the concrete type passed to a Configurer:
LogLevel (debug | info | error), OutFormat (json | text),
Outfile (path to file; missing = send to stdout/err). -/
structure Config where
  LogLevel : String
  OutFormat : String
  Outfile : String
deriving DecidableEq, Repr

/-- `Config.Update` overwrites this Config's fields with the provided one
if the new fields are not the zero value for that field.  The Go receiver
is mutated in place and returned; here the updated value is returned.
A `nil` argument (modelled by `none`) leaves the base unchanged. -/
def Config.Update (c : Config) (cfg : Option Config) : Config :=
  match cfg with
  | none => c
  | some k =>
    let c1 := if k.LogLevel ≠ "" then { c with LogLevel := k.LogLevel } else c
    let c2 := if k.OutFormat ≠ "" then { c1 with OutFormat := k.OutFormat } else c1
    if k.Outfile ≠ "" then { c2 with Outfile := k.Outfile } else c2

/-- Character class of Go's `unicode.IsSpace` restricted to Latin-1,
which is exactly the set `strings.TrimSpace` trims for ASCII/Latin-1 input. -/
def goIsSpace (c : Char) : Bool :=
  c = ' ' || c = '\t' || c = '\n' || c = '\x0b' || c = '\x0c' || c = '\r' ||
  c = '\u0085' || c = '\u00A0'

/-- Go's `strings.TrimSpace`: drop leading and trailing whitespace. -/
def trimSpace (s : String) : String :=
  String.mk (((s.toList.dropWhile goIsSpace).reverse.dropWhile goIsSpace).reverse)

/-- Result of a Go call: normal value, returned `error`, or `panic`.
The source returns errors from `Configure` but panics inside
`toLogLevel` / `toOutputFormat` / `SetClient`, so the two failure modes
are kept distinct. -/
inductive GoResult (α : Type) where
  | ok : α → GoResult α
  | err : String → GoResult α
  | panicked : String → GoResult α
deriving DecidableEq, Repr

/-- logrus severity levels used by the facade. -/
inductive LogrusLevel where
  | debug
  | info
  | error
  | fatal
deriving DecidableEq, Repr

/-- logrus formatters as configured by the facade: JSON, or text with
the given FullTimestamp flag and timestamp format string. -/
inductive LogrusFormatter where
  | json
  | text : Bool → String → LogrusFormatter
deriving DecidableEq, Repr

/-- The panic message of `toLogLevel` for an unknown (non-empty) level. -/
def unknownLevelMsg (name : String) : String :=
  "Unknown log level: " ++ name ++ ". Legal values: debug, info, error"

/-- The panic message of `toLogLevel` for an empty level string. -/
def emptyLevelMsg : String :=
  "Please provide a log level. Legal values: debug, info, error"

/-- `toLogLevel` translates a level string (after trimming) into the
logrus level enum; the Go default branch panics, modelled as `.error msg`
(the switch over the trimmed string is written as an if-chain). -/
def toLogLevel (name : String) : Except String LogrusLevel :=
  if trimSpace name = "debug" then .ok .debug
  else if trimSpace name = "info" then .ok .info
  else if trimSpace name = "error" then .ok .error
  else
    .error (if (trimSpace name).length = 0 then emptyLevelMsg
            else unknownLevelMsg (trimSpace name))

/-- `toOutputFormat` translates a format string into a logrus formatter;
the Go default branch panics, modelled as `.error msg`. -/
def toOutputFormat (name : String) : Except String LogrusFormatter :=
  if name = "json" then .ok .json
  else if name = "text" then .ok (.text true "2006-01-02 15:04:05")
  else .error ("Unknown formatter " ++ name ++ ". Legal: json | text")

/-- An open file handle: the path handed to `os.OpenFile` together with
the flag bits O_CREATE, O_WRONLY, O_APPEND it was opened with. -/
structure FileHandle where
  path : String
  create : Bool
  writeOnly : Bool
  append : Bool
deriving DecidableEq, Repr

/-- The output destination of the logrus logger (`l.log.Out`). -/
inductive OutDest where
  | stdout
  | stderr
  | file : FileHandle → OutDest
deriving DecidableEq, Repr

/-- Observable state of a `LogrusLogger`: the wrapped logrus client's
output destination, level and formatter, plus the recorded `path` field. -/
structure LogrusLogger where
  out : OutDest
  level : LogrusLevel
  formatter : LogrusFormatter
  path : String
deriving DecidableEq, Repr

/-- The state `logrus.New()` produces: stderr output, info level,
default text formatter; the facade's `path` field starts empty. -/
def freshLogrus : LogrusLogger :=
  { out := .stderr, level := .info, formatter := .text false "", path := "" }

/-- The filesystem collaborator (github.com/brinick/fs and os.OpenFile):
`dirOf` is `fs.NewFile(p).Dir().Path`, `dirExists` the directory
existence check (which may itself fail), `openFileErr p = some e` means
`os.OpenFile(p, ...)` fails with error `e`, `none` means it succeeds. -/
structure FS where
  dirOf : String → String
  dirExists : String → Except String Bool
  openFileErr : String → Option String

/-- Side effects tracked by the embedding: constructing a backend, and
successfully opening an output file. -/
inductive Effect where
  | construct : String → Effect
  | openedFile : FileHandle → Effect
deriving DecidableEq, Repr

/-- `Name` of the structured backend. -/
def LogrusLogger.Name (_l : LogrusLogger) : String :=
  "logrus"

/-- `Path` returns the full path to the logger output, or empty string
if logging is not going to a file. -/
def LogrusLogger.Path (l : LogrusLogger) : String :=
  l.path

/-- `logfileCheck` verifies that the log file's parent directory exists;
returns `some errMsg` on failure, `none` on success. -/
def logfileCheck (fs : FS) (path : String) : Option String :=
  let logfileDir := fs.dirOf path
  match fs.dirExists logfileDir with
  | .error e => some ("unable to check if logfile parent directory exists: " ++ e)
  | .ok false => some ("log file parent directory inexistant, please create => " ++ logfileDir)
  | .ok true => none

/-- `Configure` permits configuration of the logger via a Config struct.
It mirrors the Go method's sequential mutation: output is reset to
stdout first, then level and formatter are assigned (each translation
panics on bad input), then the trimmed outfile path is recorded; if it
is non-empty the parent directory is checked and the file is opened at
the UNTRIMMED `cfg.Outfile` in create/write/append mode.  The returned
state is the receiver after whatever assignments were reached. -/
def LogrusLogger.Configure (fs : FS) (l : LogrusLogger) (cfg : Config) :
    GoResult Unit × LogrusLogger × List Effect :=
  match toLogLevel cfg.LogLevel with
  | .error m => (.panicked m, { l with out := .stdout }, [])
  | .ok lvl =>
    match toOutputFormat cfg.OutFormat with
    | .error m => (.panicked m, { l with out := .stdout, level := lvl }, [])
    | .ok fm =>
      if trimSpace cfg.Outfile = "" then
        (.ok (), { l with out := .stdout, level := lvl, formatter := fm,
                          path := trimSpace cfg.Outfile }, [])
      else
        match logfileCheck fs (trimSpace cfg.Outfile) with
        | some e =>
          (.err e, { l with out := .stdout, level := lvl, formatter := fm,
                            path := trimSpace cfg.Outfile }, [])
        | none =>
          match fs.openFileErr cfg.Outfile with
          | some e =>
            (.err e, { l with out := .stdout, level := lvl, formatter := fm,
                              path := trimSpace cfg.Outfile }, [])
          | none =>
            (.ok (), { l with out := .file ⟨cfg.Outfile, true, true, true⟩,
                              level := lvl, formatter := fm,
                              path := trimSpace cfg.Outfile },
             [Effect.openedFile ⟨cfg.Outfile, true, true, true⟩])

/-- The package's default logrus Config: text format, info level. -/
def defaultLogrusConfig : Config :=
  { LogLevel := "info", OutFormat := "text", Outfile := "" }

/-- `NewLogrusLogger` wraps a logrus client: a fresh logrus state is
configured with the default config updated by the caller's config
(`nil` caller config is replaced by the default first); a Configure
failure is returned with no logger. -/
def NewLogrusLogger (fs : FS) (cfg : Option Config) :
    GoResult LogrusLogger × List Effect :=
  let l := freshLogrus
  let cfg1 := cfg.getD defaultLogrusConfig
  match LogrusLogger.Configure fs l (defaultLogrusConfig.Update (some cfg1)) with
  | (.ok _, st, eff) => (.ok st, Effect.construct "logrus" :: eff)
  | (.err e, _, eff) => (.err e, Effect.construct "logrus" :: eff)
  | (.panicked m, _, eff) => (.panicked m, Effect.construct "logrus" :: eff)

/-- A log record as handed to the external logrus capability:
severity, message, and the field mapping passed to `WithFields`. -/
structure LogRecord where
  level : LogrusLevel
  msg : String
  data : String → Option GoValue

/-- `mapify` converts the slice of Fields into a map keyed on
`Field.Name` (later entries overwrite earlier ones, as Go map
assignment does), which can be passed to logrus' WithFields method. -/
def mapify (fields : List Field) : String → Option GoValue :=
  fields.foldl (fun data f => fun k => if k = f.Name then some f.Val else data k)
    (fun _ => none)

/-- The result of `runtime.Caller(3)` when it succeeds: the name of the
function at that frame (`runtime.FuncForPC(pc).Name()`) and the line
number. `none` models `ok = false`. -/
structure CallerFrame where
  fn : String
  line : Nat
deriving DecidableEq, Repr

/-- Go's `strings.SplitN(s, sep, 2)` for a non-empty separator:
split at the first occurrence of `sep`, or return the whole string
as a singleton if `sep` does not occur. -/
def goSplitN2 (s sep : String) : List String :=
  match s.splitOn sep with
  | [] => [s]
  | [x] => [x]
  | x :: rest => [x, String.intercalate sep rest]

/-- Go's `path/filepath.Dir` on the slash-separated, non-empty,
non-trailing-slash identifiers produced by `runtime.FuncForPC` (on
which `Clean` is the identity): everything before the final slash,
`"."` if there is no slash, `"/"` for a root-level entry. -/
def filepathDir (s : String) : String :=
  match (s.splitOn "/").dropLast with
  | [] => "."
  | ps =>
    match String.intercalate "/" ps with
    | "" => "/"
    | d => d

/-- Go's `path/filepath.Base` on the same identifier domain:
everything after the final slash. -/
def filepathBase (s : String) : String :=
  if s = "" then "."
  else
    match (s.splitOn "/").getLast? with
    | some "" => "/"
    | some x => x
    | none => "."

/-- Go's `path/filepath.Join` of two elements on the same domain
(empty elements are dropped and `Clean` collapses a leading `./`). -/
def filepathJoin (a b : String) : String :=
  if a = "" then b
  else if b = "" then a
  else if a = "." then b
  else a ++ "/" ++ b

/-- `source` returns the pkg/src fields describing the call site found
at `runtime.Caller(3)`.  On inspection failure both fields are the
sentinels `"???"` and `"???:0"`.  On success the frame's function name
is split into a directory part and a `pkg.rest` base; `srcToks[1]`
is an out-of-range index (a Go runtime panic) if the base contains
no dot. -/
def source (frame : Option CallerFrame) : GoResult (List Field) :=
  match frame with
  | none => .ok [⟨"pkg", .str "???"⟩, ⟨"src", .str "???:0"⟩]
  | some f =>
    match goSplitN2 (filepathBase f.fn) "." with
    | first :: second :: _ =>
      .ok [⟨"pkg", .str (filepathJoin (filepathDir f.fn) first)⟩,
           ⟨"src", .str (second ++ ":" ++ toString f.line)⟩]
    | _ => .panicked "runtime error: index out of range"

/-- `Debug` appends the call-site fields to the caller's fields and
hands logrus a debug-severity record with the mapified fields. -/
def LogrusLogger.Debug (_l : LogrusLogger) (frame : Option CallerFrame)
    (msg : String) (fields : List Field) : GoResult LogRecord :=
  match source frame with
  | .ok sf => .ok ⟨.debug, msg, mapify (fields ++ sf)⟩
  | .err e => .err e
  | .panicked m => .panicked m

/-- `Info`: as `Debug`, at info severity. -/
def LogrusLogger.Info (_l : LogrusLogger) (frame : Option CallerFrame)
    (msg : String) (fields : List Field) : GoResult LogRecord :=
  match source frame with
  | .ok sf => .ok ⟨.info, msg, mapify (fields ++ sf)⟩
  | .err e => .err e
  | .panicked m => .panicked m

/-- `Error`: as `Debug`, at error severity. -/
def LogrusLogger.Error (_l : LogrusLogger) (frame : Option CallerFrame)
    (msg : String) (fields : List Field) : GoResult LogRecord :=
  match source frame with
  | .ok sf => .ok ⟨.error, msg, mapify (fields ++ sf)⟩
  | .err e => .err e
  | .panicked m => .panicked m

/-- `Fatal`: as `Debug`, at fatal severity (process termination is the
external capability's contract, not modelled here). -/
def LogrusLogger.Fatal (_l : LogrusLogger) (frame : Option CallerFrame)
    (msg : String) (fields : List Field) : GoResult LogRecord :=
  match source frame with
  | .ok sf => .ok ⟨.fatal, msg, mapify (fields ++ sf)⟩
  | .err e => .err e
  | .panicked m => .panicked m

/-- `Name` of the null backend. -/
def NullLogger.Name : String :=
  "null"

/-- `Path` of the null backend: always empty. -/
def NullLogger.Path : String :=
  ""

/-- `Configure` of the null backend: a no-op that always succeeds,
for any config including `nil`. -/
def NullLogger.Configure (_cfg : Option Config) : GoResult Unit :=
  .ok ()

/-- Null `Debug`: emits no records. -/
def NullLogger.Debug (_msg : String) (_fields : List Field) : List LogRecord :=
  []

/-- Null `Info`: emits no records. -/
def NullLogger.Info (_msg : String) (_fields : List Field) : List LogRecord :=
  []

/-- Null `Error`: emits no records. -/
def NullLogger.Error (_msg : String) (_fields : List Field) : List LogRecord :=
  []

/-- Null `Fatal`: emits no records. -/
def NullLogger.Fatal (_msg : String) (_fields : List Field) : List LogRecord :=
  []

/-- Null `DebugL`: emits no records. -/
def NullLogger.DebugL (_msgs : List String) (_fields : List Field) : List LogRecord :=
  []

/-- Null `InfoL`: emits no records. -/
def NullLogger.InfoL (_msgs : List String) (_fields : List Field) : List LogRecord :=
  []

/-- Null `ErrorL`: emits no records. -/
def NullLogger.ErrorL (_msgs : List String) (_fields : List Field) : List LogRecord :=
  []

/-- Null `FatalL`: emits no records. -/
def NullLogger.FatalL (_msgs : List String) (_fields : List Field) : List LogRecord :=
  []

/-- The closed set of backends behind the `Logger` interface. -/
inductive Logger where
  | null : Logger
  | logrus : LogrusLogger → Logger
deriving DecidableEq, Repr

/-- Dynamic dispatch of `Name()` over the two backends. -/
def Logger.Name : Logger → String
  | .null => NullLogger.Name
  | .logrus l => l.Name

/-- `NewNullLogger` creates a new NullLogger; its `Configure` call is a
no-op and the error result is always nil. -/
def NewNullLogger (cfg : Option Config) : GoResult Logger × List Effect :=
  match NullLogger.Configure cfg with
  | _ => (.ok .null, [Effect.construct "null"])

/-- The package-level state: the mutable `logger` variable holding the
active client (`nil` when never set, in this revision). -/
structure FacadeState where
  logger : Option Logger
deriving DecidableEq, Repr

/-- `Client` returns the logging client, or nil if it has not been
initiated yet. -/
def Client (st : FacadeState) : Option Logger :=
  st.logger

/-- `NewClient` returns a new instance of the concrete logging client
with the given name ("logrus" → structured backend, anything else →
null backend), propagating a construction failure.  The package-level
state is threaded through to show it is not touched: the Go body only
declares a local variable shadowing the package-level `logger`. -/
def NewClient (fs : FS) (st : FacadeState) (name : String) (cfg : Option Config) :
    GoResult Logger × FacadeState × List Effect :=
  if name = "logrus" then
    match NewLogrusLogger fs cfg with
    | (.ok l, eff) => (.ok (.logrus l), st, eff)
    | (.err e, eff) => (.err e, st, eff)
    | (.panicked m, eff) => (.panicked m, st, eff)
  else
    match NewNullLogger cfg with
    | (.ok l, eff) => (.ok l, st, eff)
    | (.err e, eff) => (.err e, st, eff)
    | (.panicked m, eff) => (.panicked m, st, eff)

/-- The switch body of `SetClient`: "logrus" and "none" construct the
corresponding backend and assign it to the package-level logger; any
other name panics. -/
def setClientSwitch (fs : FS) (st : FacadeState) (name : String)
    (cfg : Option Config) : GoResult Unit × FacadeState × List Effect :=
  if name = "logrus" then
    match NewLogrusLogger fs cfg with
    | (.ok l, eff) => (.ok (), { st with logger := some (.logrus l) }, eff)
    | (.err e, eff) => (.err e, st, eff)
    | (.panicked m, eff) => (.panicked m, st, eff)
  else if name = "none" then
    match NewNullLogger cfg with
    | (.ok l, eff) => (.ok (), { st with logger := some l }, eff)
    | (.err e, eff) => (.err e, st, eff)
    | (.panicked m, eff) => (.panicked m, st, eff)
  else
    (.panicked ("unknown logging client type " ++ name ++ ". Legal: logrus, none"),
     st, [])

/-- `SetClient` initiates the logging client with the given name and
sets it at the package level; if the active logger is non-nil and its
name already matches, it returns immediately with no error. -/
def SetClient (fs : FS) (st : FacadeState) (name : String) (cfg : Option Config) :
    GoResult Unit × FacadeState × List Effect :=
  match st.logger with
  | some l => if l.Name = name then (.ok (), st, []) else setClientSwitch fs st name cfg
  | none => setClientSwitch fs st name cfg

/-- A filesystem in which every directory exists and every open
succeeds; parent directories are reported as `"/tmp"`. -/
def fsOK : FS :=
  { dirOf := fun _ => "/tmp", dirExists := fun _ => .ok true,
    openFileErr := fun _ => none }

/-- A filesystem in which no directory exists. -/
def fsNoDir : FS :=
  { dirOf := fun _ => "/tmp/sub", dirExists := fun _ => .ok false,
    openFileErr := fun _ => none }

/-- Evaluating `mapify` on fields extended by the two call-site fields:
the call-site values win at `"pkg"` and `"src"`, all other keys fall
through to the caller fields. -/
theorem mapify_append_pkg_src (fields : List Field) (vp vq : GoValue) (k : String) :
    mapify (fields ++ [⟨"pkg", vp⟩, ⟨"src", vq⟩]) k =
      if k = "src" then some vq
      else if k = "pkg" then some vp
      else mapify fields k := by
  unfold mapify
  rw [List.foldl_append]
  rfl

/-- Claim C3: `Config.Update` merges an override onto a base field-wise,
preferring each non-empty override field; a `nil` or all-empty override
leaves the base unchanged, and a fully-populated override yields
exactly the override. -/
theorem config_update_merge (B O : Config) :
    (B.Update (some O)).LogLevel =
      (if O.LogLevel = "" then B.LogLevel else O.LogLevel) ∧
    (B.Update (some O)).OutFormat =
      (if O.OutFormat = "" then B.OutFormat else O.OutFormat) ∧
    (B.Update (some O)).Outfile =
      (if O.Outfile = "" then B.Outfile else O.Outfile) ∧
    B.Update none = B ∧
    B.Update (some ⟨"", "", ""⟩) = B ∧
    (O.LogLevel ≠ "" → O.OutFormat ≠ "" → O.Outfile ≠ "" →
      B.Update (some O) = O) := by
  obtain ⟨bl, bf, bo⟩ := B
  obtain ⟨l1, f1, o1⟩ := O
  refine ⟨?_, ?_, ?_, rfl, by simp [Config.Update], ?_⟩ <;>
    by_cases h1 : l1 = "" <;> by_cases h2 : f1 = "" <;> by_cases h3 : o1 = "" <;>
      simp_all [Config.Update]

/-- Witness for C3: a fully-populated override replaces every field. -/
theorem config_update_merge_witness :
    Config.Update ⟨"debug", "json", "/a"⟩ (some ⟨"info", "text", "/b"⟩) =
      ⟨"info", "text", "/b"⟩ :=
  (config_update_merge ⟨"debug", "json", "/a"⟩ ⟨"info", "text", "/b"⟩).2.2.2.2.2
    (by decide) (by decide) (by decide)

/-- Claim C9: the null backend's `Name` is the fixed identifier `"null"`,
distinct from the structured backend's name; `Path` is empty;
`Configure` succeeds as a no-op on every config including `nil`; and
every leveled operation, including the multi-line variants, emits
nothing and cannot fail. -/
theorem nullLogger_contract :
    NullLogger.Name = "null" ∧
    (∀ l : LogrusLogger, NullLogger.Name ≠ l.Name) ∧
    NullLogger.Path = "" ∧
    (∀ cfg : Option Config, NullLogger.Configure cfg = .ok ()) ∧
    (∀ (msg : String) (fields : List Field),
      NullLogger.Debug msg fields = [] ∧ NullLogger.Info msg fields = [] ∧
      NullLogger.Error msg fields = [] ∧ NullLogger.Fatal msg fields = []) ∧
    (∀ (msgs : List String) (fields : List Field),
      NullLogger.DebugL msgs fields = [] ∧ NullLogger.InfoL msgs fields = [] ∧
      NullLogger.ErrorL msgs fields = [] ∧ NullLogger.FatalL msgs fields = []) := by
  refine ⟨rfl, ?_, rfl, fun _ => rfl,
    fun _ _ => ⟨rfl, rfl, rfl, rfl⟩, fun _ _ => ⟨rfl, rfl, rfl, rfl⟩⟩
  intro l h
  simp [NullLogger.Name, LogrusLogger.Name] at h

/-- Witness for C9: the contract evaluated at concrete arguments. -/
theorem nullLogger_contract_witness :
    NullLogger.Configure (some ⟨"debug", "json", "/x"⟩) = .ok () ∧
    NullLogger.Debug "boom" [F "a" (.int 1)] = [] ∧
    NullLogger.FatalL ["a", "b"] [] = [] :=
  ⟨nullLogger_contract.2.2.2.1 (some ⟨"debug", "json", "/x"⟩),
   (nullLogger_contract.2.2.2.2.1 "boom" [F "a" (.int 1)]).1,
   (nullLogger_contract.2.2.2.2.2 ["a", "b"] []).2.2.2⟩

/-- Claim C7: when stack inspection fails, the locator returns the sentinel
field values `pkg = "???"` and `src = "???:0"` instead of an error, and
every leveled logging call still completes normally, handing logrus a
record whose mapping carries the sentinels. -/
theorem source_failure_sentinels :
    source none = .ok [⟨"pkg", .str "???"⟩, ⟨"src", .str "???:0"⟩] ∧
    ∀ (l : LogrusLogger) (msg : String) (fields : List Field),
      l.Debug none msg fields =
        .ok ⟨.debug, msg,
          mapify (fields ++ [⟨"pkg", .str "???"⟩, ⟨"src", .str "???:0"⟩])⟩ ∧
      l.Info none msg fields =
        .ok ⟨.info, msg,
          mapify (fields ++ [⟨"pkg", .str "???"⟩, ⟨"src", .str "???:0"⟩])⟩ ∧
      l.Error none msg fields =
        .ok ⟨.error, msg,
          mapify (fields ++ [⟨"pkg", .str "???"⟩, ⟨"src", .str "???:0"⟩])⟩ ∧
      l.Fatal none msg fields =
        .ok ⟨.fatal, msg,
          mapify (fields ++ [⟨"pkg", .str "???"⟩, ⟨"src", .str "???:0"⟩])⟩ ∧
      mapify (fields ++ [⟨"pkg", .str "???"⟩, ⟨"src", .str "???:0"⟩]) "pkg" =
        some (.str "???") ∧
      mapify (fields ++ [⟨"pkg", .str "???"⟩, ⟨"src", .str "???:0"⟩]) "src" =
        some (.str "???:0") := by
  refine ⟨rfl, fun l msg fields => ⟨rfl, rfl, rfl, rfl, ?_, ?_⟩⟩ <;>
    rw [mapify_append_pkg_src] <;> rfl

/-- Claim C2: when the active logger's name equals the requested name,
`SetClient` is a no-op: it returns nil, leaves the package-level
reference untouched, constructs no backend and opens no file. -/
theorem setClient_same_name_noop (fs : FS) (st : FacadeState) (name : String)
    (cfg : Option Config) (l : Logger)
    (h1 : st.logger = some l) (h2 : l.Name = name) :
    SetClient fs st name cfg = (.ok (), st, []) := by
  unfold SetClient
  rw [h1]
  simp [h2]

/-- Witness for C2: reselecting the already-active null backend by name. -/
theorem setClient_same_name_noop_witness :
    SetClient fsOK ⟨some .null⟩ "null" none = (.ok (), ⟨some .null⟩, []) :=
  setClient_same_name_noop fsOK ⟨some .null⟩ "null" none .null rfl rfl

/-- Claim C8: `NewClient` is a pure constructor: the package-level state read
by `Client()` is unchanged; name `"logrus"` yields the structured
backend or propagates its construction failure as a returned error with
no logger; any other name yields the null backend. -/
theorem newClient_no_global_mutation (fs : FS) (st : FacadeState) (name : String)
    (cfg : Option Config) :
    (NewClient fs st name cfg).2.1 = st ∧
    Client (NewClient fs st name cfg).2.1 = Client st ∧
    (name ≠ "logrus" → (NewClient fs st name cfg).1 = .ok .null) ∧
    (∀ l, name = "logrus" → (NewLogrusLogger fs cfg).1 = .ok l →
      (NewClient fs st name cfg).1 = .ok (.logrus l)) ∧
    (∀ e, name = "logrus" → (NewLogrusLogger fs cfg).1 = .err e →
      (NewClient fs st name cfg).1 = .err e) := by
  by_cases h : name = "logrus"
  · subst h
    rcases hNL : NewLogrusLogger fs cfg with ⟨r, eff⟩
    cases r <;> simp_all [NewClient, Client]
  · simp_all [NewClient, NewNullLogger, Client]

/-- Witness for C8: an unrecognized name yields the null backend and leaves
the package state untouched. -/
theorem newClient_no_global_mutation_witness :
    (NewClient fsOK ⟨none⟩ "whatever" none).1 = .ok .null ∧
    (NewClient fsOK ⟨none⟩ "whatever" none).2.1 = ⟨none⟩ :=
  ⟨(newClient_no_global_mutation fsOK ⟨none⟩ "whatever" none).2.2.1 (by decide),
   (newClient_no_global_mutation fsOK ⟨none⟩ "whatever" none).1⟩

/-- Counterexample for C1: on an unknown level string the structured
logger's `Configure` panics (aborting the process) instead of
returning the error to the caller. -/
theorem configure_unknown_level_panics_not_err :
    (LogrusLogger.Configure fsOK freshLogrus ⟨"verbose", "text", ""⟩).1 =
      .panicked "Unknown log level: verbose. Legal values: debug, info, error" ∧
    ∀ e, (LogrusLogger.Configure fsOK freshLogrus ⟨"verbose", "text", ""⟩).1 ≠
      GoResult.err e := by
  constructor
  · decide
  · intro e h
    rw [show (LogrusLogger.Configure fsOK freshLogrus ⟨"verbose", "text", ""⟩).1 =
        GoResult.panicked
          "Unknown log level: verbose. Legal values: debug, info, error"
      by decide] at h
    exact GoResult.noConfusion h

/-- Claim C1 as amended: an unrecognized trimmed level string makes `Configure`
panic with the unknown-level message, an empty trimmed level string
with the distinct empty-level message, and (with a valid level) an
unrecognized format string with the unknown-formatter message; in all
three cases the failure is a panic, never a returned error. -/
theorem configure_invalid_level_or_format_panics (fs : FS) (l : LogrusLogger)
    (cfg : Config) :
    (trimSpace cfg.LogLevel ≠ "debug" → trimSpace cfg.LogLevel ≠ "info" →
     trimSpace cfg.LogLevel ≠ "error" →
      (LogrusLogger.Configure fs l cfg).1 =
        .panicked (if (trimSpace cfg.LogLevel).length = 0 then emptyLevelMsg
                   else unknownLevelMsg (trimSpace cfg.LogLevel))) ∧
    ((∃ lvl, toLogLevel cfg.LogLevel = .ok lvl) →
     cfg.OutFormat ≠ "json" → cfg.OutFormat ≠ "text" →
      (LogrusLogger.Configure fs l cfg).1 =
        .panicked ("Unknown formatter " ++ cfg.OutFormat ++ ". Legal: json | text")) ∧
    (∀ s, emptyLevelMsg ≠ unknownLevelMsg s) ∧
    (∀ m e, (LogrusLogger.Configure fs l cfg).1 = .panicked m →
      (LogrusLogger.Configure fs l cfg).1 ≠ .err e) := by
  refine ⟨?_, ?_, ?_, ?_⟩
  · intro h1 h2 h3
    have hlv : toLogLevel cfg.LogLevel =
        .error (if (trimSpace cfg.LogLevel).length = 0 then emptyLevelMsg
                else unknownLevelMsg (trimSpace cfg.LogLevel)) := by
      unfold toLogLevel
      rw [if_neg h1, if_neg h2, if_neg h3]
    unfold LogrusLogger.Configure
    rw [hlv]
  · rintro ⟨lvl, hlv⟩ hf1 hf2
    have hfm : toOutputFormat cfg.OutFormat =
        .error ("Unknown formatter " ++ cfg.OutFormat ++ ". Legal: json | text") := by
      unfold toOutputFormat
      rw [if_neg hf1, if_neg hf2]
    unfold LogrusLogger.Configure
    rw [hlv, hfm]
  · intro s h
    obtain ⟨sl⟩ := s
    have hP : emptyLevelMsg.data.head? = some 'P' := rfl
    have hU : (unknownLevelMsg ⟨sl⟩).data.head? = some 'U' := rfl
    rw [h, hU] at hP
    exact absurd hP (by decide)
  · intro m e h1 h2
    rw [h1] at h2
    exact GoResult.noConfusion h2

/-- Witness for C1: an empty level string panics with the empty-level
message. -/
theorem configure_invalid_level_or_format_panics_witness :
    (LogrusLogger.Configure fsOK freshLogrus ⟨"", "json", ""⟩).1 =
      .panicked emptyLevelMsg := by
  have h := (configure_invalid_level_or_format_panics fsOK freshLogrus
      ⟨"", "json", ""⟩).1 (by decide) (by decide) (by decide)
  exact h.trans (by decide)

/-- Claim C4: with a valid level and format and a non-empty trimmed outfile
path, `Configure` fails with the directory-missing message when the
parent directory does not exist, with the distinct check-failed message
when the existence check itself errors, propagates the open error when
the open fails, and on success returns nil with `Path()` set to the
trimmed path and output redirected to the file opened in
create/write/append mode. -/
theorem configure_outfile_cases (fs : FS) (l : LogrusLogger) (cfg : Config)
    (lvl : LogrusLevel) (fm : LogrusFormatter)
    (hl : toLogLevel cfg.LogLevel = .ok lvl)
    (hf : toOutputFormat cfg.OutFormat = .ok fm)
    (hp : trimSpace cfg.Outfile ≠ "") :
    (∀ e, fs.dirExists (fs.dirOf (trimSpace cfg.Outfile)) = .error e →
      (LogrusLogger.Configure fs l cfg).1 =
        .err ("unable to check if logfile parent directory exists: " ++ e)) ∧
    (fs.dirExists (fs.dirOf (trimSpace cfg.Outfile)) = .ok false →
      (LogrusLogger.Configure fs l cfg).1 =
        .err ("log file parent directory inexistant, please create => " ++
          fs.dirOf (trimSpace cfg.Outfile))) ∧
    (∀ e d, ("unable to check if logfile parent directory exists: " ++ e) ≠
      ("log file parent directory inexistant, please create => " ++ d)) ∧
    (fs.dirExists (fs.dirOf (trimSpace cfg.Outfile)) = .ok true →
      (∀ e, fs.openFileErr cfg.Outfile = some e →
        (LogrusLogger.Configure fs l cfg).1 = .err e) ∧
      (fs.openFileErr cfg.Outfile = none →
        (LogrusLogger.Configure fs l cfg).1 = .ok () ∧
        ((LogrusLogger.Configure fs l cfg).2.1).Path = trimSpace cfg.Outfile ∧
        ((LogrusLogger.Configure fs l cfg).2.1).out =
          .file ⟨cfg.Outfile, true, true, true⟩)) := by
  refine ⟨?_, ?_, ?_, ?_⟩
  · intro e he
    have hchk : logfileCheck fs (trimSpace cfg.Outfile) =
        some ("unable to check if logfile parent directory exists: " ++ e) := by
      simp only [logfileCheck, he]
    simp only [LogrusLogger.Configure, hl, hf, if_neg hp, hchk]
  · intro he
    have hchk : logfileCheck fs (trimSpace cfg.Outfile) =
        some ("log file parent directory inexistant, please create => " ++
          fs.dirOf (trimSpace cfg.Outfile)) := by
      simp only [logfileCheck, he]
    simp only [LogrusLogger.Configure, hl, hf, if_neg hp, hchk]
  · intro e d h
    obtain ⟨el⟩ := e
    obtain ⟨dl⟩ := d
    have hu : (("unable to check if logfile parent directory exists: " ++
        String.mk el)).data.head? = some 'u' := rfl
    have hlo : (("log file parent directory inexistant, please create => " ++
        String.mk dl)).data.head? = some 'l' := rfl
    rw [h] at hu
    rw [hlo] at hu
    exact absurd hu (by decide)
  · intro he
    have hchk : logfileCheck fs (trimSpace cfg.Outfile) = none := by
      simp only [logfileCheck, he]
    constructor
    · intro e hopen
      simp only [LogrusLogger.Configure, hl, hf, if_neg hp, hchk, hopen]
    · intro hopen
      refine ⟨?_, ?_, ?_⟩ <;>
        simp only [LogrusLogger.Configure, LogrusLogger.Path, hl, hf,
          if_neg hp, hchk, hopen]

/-- Witness for C4: a writable directory makes `Configure` succeed and
record the trimmed path. -/
theorem configure_outfile_cases_witness :
    (LogrusLogger.Configure fsOK freshLogrus ⟨"info", "text", "/tmp/out.log"⟩).1 =
      .ok () ∧
    ((LogrusLogger.Configure fsOK freshLogrus
        ⟨"info", "text", "/tmp/out.log"⟩).2.1).Path = "/tmp/out.log" := by
  have h := configure_outfile_cases fsOK freshLogrus ⟨"info", "text", "/tmp/out.log"⟩
    .info (.text true "2006-01-02 15:04:05") rfl rfl (by decide)
  obtain ⟨-, -, -, h4⟩ := h
  have h5 := (h4 rfl).2 rfl
  exact ⟨h5.1, h5.2.1.trans (by decide)⟩

/-- Claim C5: whenever `Configure` fails, the logger state is left partially
mutated rather than rolled back: the output destination has been reset
to stdout, and on every returned (non-panic) error the level, formatter
and recorded path already hold the newly assigned values. -/
theorem configure_failure_partial_mutation (fs : FS) (l : LogrusLogger)
    (cfg : Config) (h : (LogrusLogger.Configure fs l cfg).1 ≠ .ok ()) :
    ((LogrusLogger.Configure fs l cfg).2.1).out = .stdout ∧
    (∀ e, (LogrusLogger.Configure fs l cfg).1 = .err e →
      ∃ lvl fm, toLogLevel cfg.LogLevel = .ok lvl ∧
        toOutputFormat cfg.OutFormat = .ok fm ∧
        ((LogrusLogger.Configure fs l cfg).2.1).level = lvl ∧
        ((LogrusLogger.Configure fs l cfg).2.1).formatter = fm ∧
        ((LogrusLogger.Configure fs l cfg).2.1).path = trimSpace cfg.Outfile) ∧
    (∀ m lvl, (LogrusLogger.Configure fs l cfg).1 = .panicked m →
      toLogLevel cfg.LogLevel = .ok lvl →
      ((LogrusLogger.Configure fs l cfg).2.1).level = lvl) := by
  rcases hlv : toLogLevel cfg.LogLevel with m | lvl
  · refine ⟨?_, ?_, ?_⟩
    · simp only [LogrusLogger.Configure, hlv]
    · intro e he
      simp only [LogrusLogger.Configure, hlv] at he
      exact GoResult.noConfusion he
    · intro m2 lvl2 hpk hok
      exact Except.noConfusion hok
  · rcases hfm : toOutputFormat cfg.OutFormat with m | fm
    · refine ⟨?_, ?_, ?_⟩
      · simp only [LogrusLogger.Configure, hlv, hfm]
      · intro e he
        simp only [LogrusLogger.Configure, hlv, hfm] at he
        exact GoResult.noConfusion he
      · intro m2 lvl2 hpk hok
        cases Except.ok.inj hok
        simp only [LogrusLogger.Configure, hlv, hfm]
    · by_cases hout : trimSpace cfg.Outfile = ""
      · exfalso
        apply h
        simp only [LogrusLogger.Configure, hlv, hfm, if_pos hout]
      · rcases hchk : logfileCheck fs (trimSpace cfg.Outfile) with _ | e0
        · rcases hopen : fs.openFileErr cfg.Outfile with _ | e1
          · exfalso
            apply h
            simp only [LogrusLogger.Configure, hlv, hfm, if_neg hout, hchk, hopen]
          · refine ⟨?_, ?_, ?_⟩
            · simp only [LogrusLogger.Configure, hlv, hfm, if_neg hout, hchk, hopen]
            · intro e he
              exact ⟨lvl, fm, rfl, rfl,
                by simp only [LogrusLogger.Configure, hlv, hfm, if_neg hout, hchk, hopen],
                by simp only [LogrusLogger.Configure, hlv, hfm, if_neg hout, hchk, hopen],
                by simp only [LogrusLogger.Configure, hlv, hfm, if_neg hout, hchk, hopen]⟩
            · intro m2 lvl2 hpk hok
              simp only [LogrusLogger.Configure, hlv, hfm, if_neg hout, hchk, hopen] at hpk
              exact GoResult.noConfusion hpk
        · refine ⟨?_, ?_, ?_⟩
          · simp only [LogrusLogger.Configure, hlv, hfm, if_neg hout, hchk]
          · intro e he
            exact ⟨lvl, fm, rfl, rfl,
              by simp only [LogrusLogger.Configure, hlv, hfm, if_neg hout, hchk],
              by simp only [LogrusLogger.Configure, hlv, hfm, if_neg hout, hchk],
              by simp only [LogrusLogger.Configure, hlv, hfm, if_neg hout, hchk]⟩
          · intro m2 lvl2 hpk hok
            simp only [LogrusLogger.Configure, hlv, hfm, if_neg hout, hchk] at hpk
            exact GoResult.noConfusion hpk

/-- Witness for C5: a missing parent directory fails `Configure` and leaves
output reset to stdout with the new path already recorded. -/
theorem configure_failure_partial_mutation_witness :
    ((LogrusLogger.Configure fsNoDir freshLogrus
        ⟨"info", "text", "/tmp/sub/x.log"⟩).2.1).out = .stdout :=
  (configure_failure_partial_mutation fsNoDir freshLogrus
    ⟨"info", "text", "/tmp/sub/x.log"⟩ (by decide)).1

/-- Claim C10: when the outfile has surrounding whitespace around a non-empty
path and `Configure` succeeds, the output file is opened at the
original UNTRIMMED `cfg.Outfile` while `Path()` reports the trimmed
string, so the reported path differs from the path actually opened. -/
theorem configure_opens_untrimmed_path (fs : FS) (l : LogrusLogger) (cfg : Config)
    (h1 : trimSpace cfg.Outfile ≠ "")
    (h2 : trimSpace cfg.Outfile ≠ cfg.Outfile)
    (h3 : (LogrusLogger.Configure fs l cfg).1 = .ok ()) :
    ((LogrusLogger.Configure fs l cfg).2.1).out =
      .file ⟨cfg.Outfile, true, true, true⟩ ∧
    ((LogrusLogger.Configure fs l cfg).2.1).Path = trimSpace cfg.Outfile ∧
    ((LogrusLogger.Configure fs l cfg).2.1).Path ≠ cfg.Outfile := by
  rcases hlv : toLogLevel cfg.LogLevel with m | lvl
  · simp only [LogrusLogger.Configure, hlv] at h3
    exact GoResult.noConfusion h3
  · rcases hfm : toOutputFormat cfg.OutFormat with m | fm
    · simp only [LogrusLogger.Configure, hlv, hfm] at h3
      exact GoResult.noConfusion h3
    · rcases hchk : logfileCheck fs (trimSpace cfg.Outfile) with _ | e0
      · rcases hopen : fs.openFileErr cfg.Outfile with _ | e1
        · refine ⟨?_, ?_, ?_⟩ <;>
            simp only [LogrusLogger.Configure, LogrusLogger.Path, hlv, hfm,
              if_neg h1, hchk, hopen]
          exact h2
        · simp only [LogrusLogger.Configure, hlv, hfm, if_neg h1, hchk, hopen] at h3
          exact GoResult.noConfusion h3
      · simp only [LogrusLogger.Configure, hlv, hfm, if_neg h1, hchk] at h3
        exact GoResult.noConfusion h3

/-- Witness for C10: `" /tmp/x.log "` is opened verbatim while `Path()`
reports `"/tmp/x.log"`. -/
theorem configure_opens_untrimmed_path_witness :
    ((LogrusLogger.Configure fsOK freshLogrus
        ⟨"info", "text", " /tmp/x.log "⟩).2.1).out =
      .file ⟨" /tmp/x.log ", true, true, true⟩ ∧
    ((LogrusLogger.Configure fsOK freshLogrus
        ⟨"info", "text", " /tmp/x.log "⟩).2.1).Path = "/tmp/x.log" := by
  have h := configure_opens_untrimmed_path fsOK freshLogrus
    ⟨"info", "text", " /tmp/x.log "⟩ (by decide) (by decide) (by decide)
  exact ⟨h.1, h.2.1.trans (by decide)⟩

/-- Claim C6: every single-message leveled operation hands logrus a record
whose mapping is built last-write-wins from the caller fields followed
by the two call-site fields: it always contains `"pkg"` and `"src"`,
the locator's values override caller-supplied fields of those names,
and every other key falls through to the caller fields. -/
theorem leveled_log_field_mapping (l : LogrusLogger) (frame : Option CallerFrame)
    (msg : String) (fields : List Field) (sf : List Field)
    (h : source frame = .ok sf) :
    ∃ p q : GoValue,
      sf = [⟨"pkg", p⟩, ⟨"src", q⟩] ∧
      l.Debug frame msg fields = .ok ⟨.debug, msg, mapify (fields ++ sf)⟩ ∧
      l.Info frame msg fields = .ok ⟨.info, msg, mapify (fields ++ sf)⟩ ∧
      l.Error frame msg fields = .ok ⟨.error, msg, mapify (fields ++ sf)⟩ ∧
      l.Fatal frame msg fields = .ok ⟨.fatal, msg, mapify (fields ++ sf)⟩ ∧
      mapify (fields ++ sf) "pkg" = some p ∧
      mapify (fields ++ sf) "src" = some q ∧
      (∀ k, k ≠ "pkg" → k ≠ "src" → mapify (fields ++ sf) k = mapify fields k) := by
  have hshape : ∃ p q : GoValue, sf = [⟨"pkg", p⟩, ⟨"src", q⟩] := by
    cases frame with
    | none =>
      exact ⟨.str "???", .str "???:0", (GoResult.ok.inj h).symm⟩
    | some f =>
      rcases hsp : goSplitN2 (filepathBase f.fn) "." with _ | ⟨a, _ | ⟨b, rest⟩⟩ <;>
        simp only [source, hsp] at h
      · exact GoResult.noConfusion h
      · exact GoResult.noConfusion h
      · exact ⟨_, _, (GoResult.ok.inj h).symm⟩
  obtain ⟨p, q, hsf⟩ := hshape
  refine ⟨p, q, hsf, ?_, ?_, ?_, ?_, ?_, ?_, ?_⟩
  · simp only [LogrusLogger.Debug, h]
  · simp only [LogrusLogger.Info, h]
  · simp only [LogrusLogger.Error, h]
  · simp only [LogrusLogger.Fatal, h]
  · subst hsf
    rw [mapify_append_pkg_src]
    rfl
  · subst hsf
    rw [mapify_append_pkg_src]
    rfl
  · intro k hk1 hk2
    subst hsf
    rw [mapify_append_pkg_src, if_neg hk2, if_neg hk1]

/-- Witness for C6: with failed stack inspection and a caller-supplied
`"pkg"` field, the locator's sentinel value wins. -/
theorem leveled_log_field_mapping_witness :
    mapify ([⟨"pkg", GoValue.str "mine"⟩] ++
      [⟨"pkg", .str "???"⟩, ⟨"src", .str "???:0"⟩]) "pkg" =
      some (.str "???") := by
  obtain ⟨p, q, hsf, -, -, -, -, hp, -, -⟩ :=
    leveled_log_field_mapping freshLogrus none "m" [⟨"pkg", GoValue.str "mine"⟩]
      [⟨"pkg", .str "???"⟩, ⟨"src", .str "???:0"⟩] rfl
  obtain ⟨hp1, hq1, -⟩ : GoValue.str "???" = p ∧ GoValue.str "???:0" = q ∧ True := by
    have := hsf
    simp only [List.cons.injEq, Field.mk.injEq] at this
    exact ⟨this.1.2, this.2.1.2, trivial⟩
  rw [← hp1] at hp
  exact hp
